import Mathlib

/-!
Verification of the TrainStation booking core (`station` Django app).

The Python source is shallowly embedded: Django model rows become Lean
structures, the database becomes an explicit `DB` record of row lists,
and each operation of the booking subsystem (`Train.capacity`,
`Ticket.validate_position`, `TicketSerializer.validate`, `Ticket.save`,
`OrderSerializer.create` inside `transaction.atomic`, the
`update_cargo_num` signal handler, `JourneyViewSet` annotation,
`OrderViewSet.get_queryset`) becomes a pure Lean function over `DB`.
Python integers are modelled as `Int`; fallible operations return
`Except` carrying the DRF-style (field, message) error payload, and the
order-creation entry point returns the post-state together with an
optional error, so that transactional rollback is an explicit statement.
-/

namespace Station

/-- DRF-style field-attributed error payload: (field name, message). -/
abbrev Err := String × String

instance {ε α : Type} [DecidableEq ε] [DecidableEq α] :
    DecidableEq (Except ε α) := fun x y =>
  match x, y with
  | .error a, .error b => decidable_of_iff (a = b) (by simp)
  | .error _, .ok _ => isFalse (fun h => Except.noConfusion h)
  | .ok _, .error _ => isFalse (fun h => Except.noConfusion h)
  | .ok a, .ok b => decidable_of_iff (a = b) (by simp)

/-- Row of `station.models.Train` (booking-relevant columns). -/
structure Train where
  id : Nat
  name : Option String
  cargo_num : Int
  places_in_cargo : Int
  deriving DecidableEq, Repr

/-- `Train.capacity` property: `self.cargo_num * self.places_in_cargo`. -/
def Train.capacity (t : Train) : Int :=
  t.cargo_num * t.places_in_cargo

/-- `Train.is_small` property: `self.capacity <= 1000`. -/
def Train.is_small (t : Train) : Bool :=
  t.capacity ≤ 1000

/-- Row of `station.models.Cargo`: FK to Train, a number, a type label. -/
structure Cargo where
  id : Nat
  train : Nat
  number : Int
  cargo_type : String
  deriving DecidableEq, Repr

/-- Row of `station.models.Journey` (booking-relevant columns: the train FK). -/
structure Journey where
  id : Nat
  train : Nat
  deriving DecidableEq, Repr

/-- Row of `station.models.Order`: owned by one user. -/
structure Order where
  id : Nat
  user : Nat
  deriving DecidableEq, Repr

/-- Row of `station.models.Ticket`: FKs to Cargo, Journey, Order plus seat. -/
structure Ticket where
  cargo : Nat
  seat : Int
  journey : Nat
  order : Nat
  deriving DecidableEq, Repr

/-- The relational store: one list of rows per table. -/
structure DB where
  trains : List Train
  cargos : List Cargo
  journeys : List Journey
  orders : List Order
  tickets : List Ticket
  deriving DecidableEq, Repr

/-- FK resolution of a train id (first row with that primary key). -/
def DB.findTrain (db : DB) (tid : Nat) : Option Train :=
  db.trains.find? (fun t => t.id == tid)

/-- FK resolution of a cargo id. -/
def DB.findCargo (db : DB) (cid : Nat) : Option Cargo :=
  db.cargos.find? (fun c => c.id == cid)

/-- The tickets related to a journey (`journey.tickets` reverse FK). -/
def DB.journeyTickets (db : DB) (jid : Nat) : List Ticket :=
  db.tickets.filter (fun t => t.journey == jid)

/-- `obj.tickets.count()` for a journey. -/
def DB.journeyTicketCount (db : DB) (jid : Nat) : Nat :=
  (db.journeyTickets jid).length

/-- The cargo rows of a train (`train.cargos` reverse FK). -/
def DB.trainCargos (db : DB) (tid : Nat) : List Cargo :=
  db.cargos.filter (fun c => c.train == tid)

/-- `train.cargos.count()`. -/
def DB.cargoCount (db : DB) (tid : Nat) : Nat :=
  (db.trainCargos tid).length

/-- `Ticket.validate_position`: raises a field-attributed range error when
`value` lies outside `[1, max_value]`, otherwise returns ok. -/
def Ticket.validate_position (value max_value : Int) (field_name : String) :
    Except Err Unit :=
  if ¬ (1 ≤ value ∧ value ≤ max_value) then
    .error (field_name,
      s!"{field_name} must be in range [1, {max_value}], not {value}")
  else
    .ok ()

/-- `JourneyListSerializer.get_tickets_available`:
`obj.train.capacity - obj.tickets.count()`. `tr` is the resolved
`obj.train` row. -/
def JourneyListSerializer.get_tickets_available (db : DB) (j : Journey)
    (tr : Train) : Int :=
  tr.capacity - (db.journeyTicketCount j.id : Int)

/-- `JourneyViewSet.get_queryset` list-view annotation:
`F("train__cargo_num") * F("train__places_in_cargo") - Count("tickets")`. -/
def JourneyViewSet.annotate_tickets_available (db : DB) (j : Journey)
    (tr : Train) : Int :=
  tr.cargo_num * tr.places_in_cargo - (db.journeyTicketCount j.id : Int)

/-- `OrderViewSet.get_queryset`: `self.queryset.filter(user=self.request.user)`. -/
def OrderViewSet.get_queryset (db : DB) (user : Nat) : List Order :=
  db.orders.filter (fun o => o.user == user)

/-- Validated data of one `TicketSerializer` item: the `cargo` and `journey`
primary keys are already resolved to rows (DRF `PrimaryKeyRelatedField`),
`seat` is the raw integer. -/
structure TicketAttrs where
  cargo : Cargo
  seat : Int
  journey : Journey
  deriving DecidableEq, Repr

/-- `TicketSerializer.validate(attrs)`: checks the seat against
`attrs["journey"].train.places_in_cargo` and the resolved cargo's `number`
against `attrs["journey"].train.cargo_num`, then returns `attrs`. -/
def TicketSerializer.validate (db : DB) (attrs : TicketAttrs) :
    Except Err TicketAttrs :=
  match db.findTrain attrs.journey.train with
  | none => .error ("journey", "journey has no train")
  | some train =>
    match Ticket.validate_position attrs.seat train.places_in_cargo "seat" with
    | .error e => .error e
    | .ok _ =>
      match Ticket.validate_position attrs.cargo.number train.cargo_num
          "cargo number" with
      | .error e => .error e
      | .ok _ => .ok attrs

/-- The `Ticket` row that `Ticket.objects.create(order=order, **ticket_data)`
inserts for one validated item. -/
def ticketRow (attrs : TicketAttrs) (orderId : Nat) : Ticket :=
  { cargo := attrs.cargo.id, seat := attrs.seat,
    journey := attrs.journey.id, order := orderId }

/-- The storage-layer `UniqueConstraint(fields=["seat", "cargo", "journey"],
name="unique_ticket_position")`: true when a row with the same
(seat, cargo, journey) triple is already present. -/
def DB.ticketConflict (db : DB) (t : Ticket) : Bool :=
  db.tickets.any (fun u =>
    u.seat == t.seat && u.cargo == t.cargo && u.journey == t.journey)

/-- `Ticket.save`: `full_clean()` (which runs `Ticket.clean`, i.e. the two
`validate_position` checks against the journey's train, and the uniqueness
validation backed by `unique_ticket_position`), then the row insert. -/
def Ticket.save (db : DB) (attrs : TicketAttrs) (orderId : Nat) :
    Except Err DB :=
  match db.findTrain attrs.journey.train with
  | none => .error ("journey", "journey has no train")
  | some train =>
    match Ticket.validate_position attrs.seat train.places_in_cargo "seat" with
    | .error e => .error e
    | .ok _ =>
      match Ticket.validate_position attrs.cargo.number train.cargo_num
          "cargo number" with
      | .error e => .error e
      | .ok _ =>
        if db.ticketConflict (ticketRow attrs orderId) then
          .error ("non_field_errors",
            "The fields seat, cargo, journey must make a unique set.")
        else
          .ok { db with tickets := db.tickets ++ [ticketRow attrs orderId] }

/-- Fresh primary key for a new `Order` row (autoincrement model). -/
def DB.nextOrderId (db : DB) : Nat :=
  (db.orders.map Order.id).foldr max 0 + 1

/-- The `for ticket_data in tickets_data: Ticket.objects.create(...)` loop. -/
def saveTickets (db : DB) (orderId : Nat) :
    List TicketAttrs → Except Err DB
  | [] => .ok db
  | attrs :: rest =>
    match Ticket.save db attrs orderId with
    | .error e => .error e
    | .ok db' => saveTickets db' orderId rest

/-- Body of `OrderSerializer.create`: create the `Order` row, then insert
every `Ticket` row in order; any failure aborts with the error. -/
def OrderSerializer.create (db : DB) (user : Nat)
    (tickets_data : List TicketAttrs) : Except Err DB :=
  let oid := db.nextOrderId
  let db1 : DB := { db with orders := db.orders ++ [{ id := oid, user := user }] }
  saveTickets db1 oid tickets_data

/-- The request-level validation pass: `TicketSerializer(many=True)` runs
`validate` on each child item in order; the first failure aborts. -/
def validateTickets (db : DB) : List TicketAttrs → Except Err (List TicketAttrs)
  | [] => .ok []
  | attrs :: rest =>
    match TicketSerializer.validate db attrs with
    | .error e => .error e
    | .ok a => match validateTickets db rest with
      | .error e => .error e
      | .ok l => .ok (a :: l)

/-- The order-creation entry point: DRF first runs
`TicketSerializer.validate` on every item of the non-empty `tickets` list
(`allow_empty=False`), then `OrderSerializer.create` runs inside
`transaction.atomic()` — on any error the transaction rolls back, so the
returned state is the unchanged input state paired with the error. -/
def createOrder (db : DB) (user : Nat) (tickets_data : List TicketAttrs) :
    DB × Option Err :=
  if tickets_data.isEmpty then
    (db, some ("tickets", "This list may not be empty."))
  else
    match validateTickets db tickets_data with
    | .error e => (db, some e)
    | .ok _ =>
      match OrderSerializer.create db user tickets_data with
      | .error e => (db, some e)
      | .ok db' => (db', none)

/-- The single-row `UPDATE` of `train.save(update_fields=["cargo_num"])`:
set `cargo_num := n` on the row with primary key `tid`. -/
def setCargoNum (tid : Nat) (n : Int) (t : Train) : Train :=
  if t.id == tid then { t with cargo_num := n } else t

/-- The `update_cargo_num` receiver on `post_save`/`post_delete` of `Cargo`:
recompute `train.cargos.count()` and persist it on the train row iff it
differs from the stored `cargo_num`. Returns the state and whether a
`train.save(update_fields=["cargo_num"])` write happened. -/
def update_cargo_num (db : DB) (c : Cargo) : DB × Bool :=
  match db.findTrain c.train with
  | none => (db, false)
  | some train =>
    let cargo_count : Int := (db.cargoCount c.train : Int)
    if train.cargo_num ≠ cargo_count then
      ({ db with trains := db.trains.map (setCargoNum train.id cargo_count) },
        true)
    else
      (db, false)

/-- `Cargo.objects.create(...)`: insert the row, then the `post_save`
signal fires `update_cargo_num`. -/
def Cargo.create (db : DB) (c : Cargo) : DB :=
  (update_cargo_num { db with cargos := db.cargos ++ [c] } c).1

/-- `cargo.delete()`: remove the row, then the `post_delete` signal fires
`update_cargo_num` with the deleted instance. -/
def Cargo.delete (db : DB) (c : Cargo) : DB :=
  (update_cargo_num
    { db with cargos := db.cargos.filter (fun x => x.id != c.id) } c).1

/-- Two ticket rows occupy the same (seat, cargo, journey) position. -/
def sameTriple (a b : Ticket) : Prop :=
  a.seat = b.seat ∧ a.cargo = b.cargo ∧ a.journey = b.journey

instance : DecidablePred (fun p : Ticket × Ticket => sameTriple p.1 p.2) :=
  fun _ => by unfold sameTriple; infer_instance

instance (a b : Ticket) : Decidable (sameTriple a b) := by
  unfold sameTriple; infer_instance

/-- The storage invariant guaranteed by `unique_ticket_position`: no two
ticket rows share their (seat, cargo, journey) triple. -/
def DB.uniqueTickets (db : DB) : Prop :=
  db.tickets.Pairwise (fun a b => ¬ sameTriple a b)

instance (db : DB) : Decidable db.uniqueTickets := by
  unfold DB.uniqueTickets; infer_instance

/-- A ticket row occupies the position a validated request asks for
(the order FK is irrelevant to the storage constraint). -/
def attrsTriple (u : Ticket) (a : TicketAttrs) : Prop :=
  u.seat = a.seat ∧ u.cargo = a.cargo.id ∧ u.journey = a.journey.id

instance (u : Ticket) (a : TicketAttrs) : Decidable (attrsTriple u a) := by
  unfold attrsTriple; infer_instance

/-- The `number` column of the cargo row a ticket's `cargo` FK resolves to
(0 when dangling; never hit under `ticketsInRange`). -/
def DB.cargoNumberOf (db : DB) (cid : Nat) : Int :=
  match db.findCargo cid with
  | some c => c.number
  | none => 0

/-- Referential well-formedness of a journey's tickets: each seat is within
the train's `places_in_cargo` and each cargo FK resolves to a cargo row of
the journey's train whose `number` is within `cargo_num` — what
`TicketSerializer.validate` would guarantee if it also checked that the
cargo belongs to the journey's train. -/
def DB.ticketsInRange (db : DB) (j : Journey) (tr : Train) : Prop :=
  ∀ t ∈ db.journeyTickets j.id,
    (1 ≤ t.seat ∧ t.seat ≤ tr.places_in_cargo) ∧
    ∃ c ∈ db.cargos, c.id = t.cargo ∧ c.train = tr.id ∧
      1 ≤ c.number ∧ c.number ≤ tr.cargo_num

instance (db : DB) (j : Journey) (tr : Train) :
    Decidable (db.ticketsInRange j tr) := by
  unfold DB.ticketsInRange; infer_instance

/-- Primary-key uniqueness of cargo rows together with the
`unique_together = ("train", "number")` constraint of `Cargo.Meta`. -/
def DB.cargoKeysUnique (db : DB) : Prop :=
  (∀ c1 ∈ db.cargos, ∀ c2 ∈ db.cargos, c1.id = c2.id → c1 = c2) ∧
  (∀ c1 ∈ db.cargos, ∀ c2 ∈ db.cargos,
    c1.train = c2.train → c1.number = c2.number → c1 = c2)

instance (db : DB) : Decidable db.cargoKeysUnique := by
  unfold DB.cargoKeysUnique; infer_instance

/-! Concrete fixtures used by counterexamples and witnesses. -/

/-- A one-cargo, one-seat train (capacity 1). -/
def exTrainA : Train := { id := 1, name := none, cargo_num := 1, places_in_cargo := 1 }

/-- A second train, also with one cargo of one seat. -/
def exTrainB : Train := { id := 2, name := none, cargo_num := 1, places_in_cargo := 1 }

/-- The cargo of `exTrainA`. -/
def exCargoA : Cargo := { id := 1, train := 1, number := 1, cargo_type := "coal" }

/-- The cargo of `exTrainB` — its `number` (1) is also in range for
`exTrainA`. -/
def exCargoB : Cargo := { id := 2, train := 2, number := 1, cargo_type := "wood" }

/-- A journey operated by `exTrainA`. -/
def exJourneyA : Journey := { id := 1, train := 1 }

/-- Store with both trains and cargos, the journey, and no bookings yet. -/
def exDB6 : DB :=
  { trains := [exTrainA, exTrainB], cargos := [exCargoA, exCargoB],
    journeys := [exJourneyA], orders := [], tickets := [] }

/-- A ticket request for `exJourneyA` using the other train's cargo. -/
def exAttrs6 : TicketAttrs := { cargo := exCargoB, seat := 1, journey := exJourneyA }

/-- A ticket request for `exJourneyA` using its own train's cargo. -/
def exAttrsA : TicketAttrs := { cargo := exCargoA, seat := 1, journey := exJourneyA }

/-- Store where the single seat of `exTrainA` is already booked
(capacity 1, one ticket, availability 0). -/
def exDB8 : DB :=
  { trains := [exTrainA, exTrainB], cargos := [exCargoA, exCargoB],
    journeys := [exJourneyA], orders := [{ id := 1, user := 5 }],
    tickets := [{ cargo := 1, seat := 1, journey := 1, order := 1 }] }

/-- A train whose stored `cargo_num` is 1 and whose only cargo row is
`exCargoA`. -/
def exTrain9 : Train := { id := 1, name := none, cargo_num := 1, places_in_cargo := 30 }

/-- Store for the last-cargo deletion scenario. -/
def exDB9 : DB :=
  { trains := [exTrain9], cargos := [exCargoA], journeys := [],
    orders := [], tickets := [] }

/-! ## Helper lemmas -/

/-- `setCargoNum` never changes a row's primary key. -/
theorem setCargoNum_id (tid : Nat) (n : Int) (t : Train) :
    (setCargoNum tid n t).id = t.id := by
  unfold setCargoNum
  split <;> rfl

/-- Updating the `cargo_num` column of the found train row commutes with
`find?` by primary key: the update map preserves ids, so the first row
with the sought id is the updated image of the row found before. -/
theorem find_update_cargo_num (l : List Train) (tid : Nat) (n : Int)
    (tr : Train) (h : l.find? (fun t => t.id == tid) = some tr) :
    (l.map (setCargoNum tr.id n)).find? (fun t => t.id == tid) =
      some { tr with cargo_num := n } := by
  induction l with
  | nil => simp at h
  | cons a l ih =>
    rw [List.map_cons]
    by_cases ha : (a.id == tid) = true
    · have h2 : List.find? (fun t => t.id == tid) (a :: l) = some a :=
        List.find?_cons_of_pos l ha
      rw [h2] at h
      injection h with h
      subst h
      have hfa : setCargoNum a.id n a = { a with cargo_num := n } := by
        unfold setCargoNum
        rw [if_pos (beq_self_eq_true a.id)]
      rw [hfa]
      exact List.find?_cons_of_pos _ ha
    · have h2 : List.find? (fun t => t.id == tid) (a :: l) =
          List.find? (fun t => t.id == tid) l :=
        List.find?_cons_of_neg l ha
      rw [h2] at h
      have hneg : ¬ ((setCargoNum tr.id n a).id == tid) = true := by
        rw [setCargoNum_id]; exact ha
      have h3 : List.find? (fun t => t.id == tid)
          (setCargoNum tr.id n a :: l.map (setCargoNum tr.id n)) =
          List.find? (fun t => t.id == tid) (l.map (setCargoNum tr.id n)) :=
        List.find?_cons_of_neg _ hneg
      rw [h3]
      exact ih h

/-- Characterization of one `update_cargo_num` firing when the cargo's
train FK resolves: the resulting train row stores exactly the recomputed
cargo count, the cargo table is untouched, and a write happens iff the
stored value differed. -/
theorem update_cargo_num_spec (db : DB) (c : Cargo) (tr : Train)
    (h : db.findTrain c.train = some tr) :
    ∃ tr', ((update_cargo_num db c).1).findTrain c.train = some tr' ∧
      tr'.cargo_num = (db.cargoCount c.train : Int) ∧
      ((update_cargo_num db c).1).cargos = db.cargos ∧
      ((update_cargo_num db c).2 = true ↔
        tr.cargo_num ≠ (db.cargoCount c.train : Int)) := by
  have heq : update_cargo_num db c =
      (if tr.cargo_num ≠ (db.cargoCount c.train : Int) then
        ({ db with trains :=
            db.trains.map (setCargoNum tr.id (db.cargoCount c.train : Int)) },
          true)
      else (db, false)) := by
    unfold update_cargo_num
    rw [h]
  rw [heq]
  by_cases hne : tr.cargo_num ≠ (db.cargoCount c.train : Int)
  · rw [if_pos hne]
    exact ⟨{ tr with cargo_num := (db.cargoCount c.train : Int) },
      find_update_cargo_num db.trains c.train _ tr h, rfl, rfl, by simp [hne]⟩
  · rw [if_neg hne]
    rw [not_not] at hne
    exact ⟨tr, h, hne, rfl, by simp [hne]⟩

/-- The Boolean uniqueness-constraint check holds exactly when a row with
the same position triple is already stored. -/
theorem ticketConflict_iff (db : DB) (t : Ticket) :
    db.ticketConflict t = true ↔ ∃ u ∈ db.tickets, sameTriple u t := by
  unfold DB.ticketConflict sameTriple
  simp [List.any_eq_true, and_assoc]

/-- A stored row matches a request's triple iff it matches the row the
request inserts (the order FK is not part of the triple). -/
theorem sameTriple_ticketRow (u : Ticket) (a : TicketAttrs) (oid : Nat) :
    sameTriple u (ticketRow a oid) ↔ attrsTriple u a :=
  Iff.rfl

/-- A successful `Ticket.save` appends exactly the requested row and can
only have happened without a uniqueness conflict. -/
theorem ticket_save_ok {db db' : DB} {attrs : TicketAttrs} {oid : Nat}
    (h : Ticket.save db attrs oid = .ok db') :
    db' = { db with tickets := db.tickets ++ [ticketRow attrs oid] } ∧
    db.ticketConflict (ticketRow attrs oid) = false := by
  unfold Ticket.save at h
  split at h
  · exact absurd h (by simp)
  · split at h
    · exact absurd h (by simp)
    · split at h
      · exact absurd h (by simp)
      · by_cases hc : db.ticketConflict (ticketRow attrs oid) = true
        · rw [if_pos hc] at h
          exact absurd h (by simp)
        · rw [if_neg hc] at h
          injection h with h
          exact ⟨h.symm, by simpa using hc⟩

/-- A successful run of the ticket-insertion loop preserves the orders
table, keeps every existing ticket row, and inserts a row for every
request of the batch. -/
theorem saveTickets_ok (oid : Nat) (td : List TicketAttrs) :
    ∀ {db db' : DB}, saveTickets db oid td = .ok db' →
      db'.orders = db.orders ∧
      (∀ t ∈ db.tickets, t ∈ db'.tickets) ∧
      (∀ a ∈ td, ticketRow a oid ∈ db'.tickets) := by
  induction td with
  | nil =>
    intro db db' h
    unfold saveTickets at h
    injection h with h
    subst h
    exact ⟨rfl, fun t ht => ht, fun a ha => absurd ha (List.not_mem_nil a)⟩
  | cons attrs rest ih =>
    intro db db' h
    unfold saveTickets at h
    cases hs : Ticket.save db attrs oid with
    | error e => rw [hs] at h; exact absurd h (by simp)
    | ok mid =>
      rw [hs] at h
      obtain ⟨hmid, -⟩ := ticket_save_ok hs
      obtain ⟨ho, hk, hn⟩ := ih h
      subst hmid
      refine ⟨ho, ?_, ?_⟩
      · intro t ht
        exact hk t (List.mem_append_left _ ht)
      · intro a ha
        rcases List.mem_cons.mp ha with rfl | ha'
        · exact hk (ticketRow a oid)
            (List.mem_append_right _ (List.mem_singleton_self _))
        · exact hn a ha'

/-- A successful run of the ticket-insertion loop preserves the storage
uniqueness invariant: every insert is guarded by the constraint check. -/
theorem saveTickets_uniq (oid : Nat) (td : List TicketAttrs) :
    ∀ {db db' : DB}, saveTickets db oid td = .ok db' →
      db.uniqueTickets → db'.uniqueTickets := by
  induction td with
  | nil =>
    intro db db' h hu
    unfold saveTickets at h
    injection h with h
    subst h
    exact hu
  | cons attrs rest ih =>
    intro db db' h hu
    unfold saveTickets at h
    cases hs : Ticket.save db attrs oid with
    | error e => rw [hs] at h; exact absurd h (by simp)
    | ok mid =>
      rw [hs] at h
      obtain ⟨hmid, hc⟩ := ticket_save_ok hs
      refine ih h ?_
      subst hmid
      unfold DB.uniqueTickets at hu ⊢
      rw [List.pairwise_append]
      refine ⟨hu, List.pairwise_singleton _ _, ?_⟩
      intro u hu' b hb
      rw [List.mem_singleton] at hb
      subst hb
      intro hsame
      have : db.ticketConflict (ticketRow attrs oid) = true :=
        (ticketConflict_iff db _).mpr ⟨u, hu', hsame⟩
      rw [this] at hc
      exact absurd hc (by simp)

/-- If some request of the batch targets a triple already stored, the
ticket-insertion loop cannot succeed: the constraint check rejects it. -/
theorem saveTickets_conflict (oid : Nat) (td : List TicketAttrs) :
    ∀ {db : DB}, (∃ a ∈ td, ∃ u ∈ db.tickets, attrsTriple u a) →
      ∀ db', saveTickets db oid td ≠ .ok db' := by
  induction td with
  | nil =>
    intro db hex db' h
    obtain ⟨a, ha, -⟩ := hex
    exact absurd ha (List.not_mem_nil a)
  | cons attrs rest ih =>
    intro db hex db' h
    unfold saveTickets at h
    cases hs : Ticket.save db attrs oid with
    | error e => rw [hs] at h; exact absurd h (by simp)
    | ok mid =>
      rw [hs] at h
      obtain ⟨hmid, hc⟩ := ticket_save_ok hs
      obtain ⟨a, ha, u, hu, htrip⟩ := hex
      rcases List.mem_cons.mp ha with rfl | ha'
      · have : db.ticketConflict (ticketRow a oid) = true :=
          (ticketConflict_iff db _).mpr
            ⟨u, hu, (sameTriple_ticketRow u a oid).mpr htrip⟩
        rw [this] at hc
        exact absurd hc (by simp)
      · refine ih ?_ db' h
        refine ⟨a, ha', u, ?_, htrip⟩
        subst hmid
        exact List.mem_append_left _ hu

/-- `TicketSerializer.validate` returns the attrs it was given. -/
theorem ticket_validate_ok_eq {db : DB} {attrs b : TicketAttrs}
    (h : TicketSerializer.validate db attrs = .ok b) : b = attrs := by
  unfold TicketSerializer.validate at h
  split at h
  · exact absurd h (by simp)
  · split at h
    · exact absurd h (by simp)
    · split at h
      · exact absurd h (by simp)
      · injection h with h
        exact h.symm

/-- When the request-level validation pass succeeds, every single item
passed `TicketSerializer.validate`. -/
theorem validateTickets_ok (db : DB) (td : List TicketAttrs) :
    ∀ {l : List TicketAttrs}, validateTickets db td = .ok l →
      ∀ a ∈ td, TicketSerializer.validate db a = .ok a := by
  induction td with
  | nil =>
    intro l h a ha
    exact absurd ha (List.not_mem_nil a)
  | cons attrs rest ih =>
    intro l h a ha
    unfold validateTickets at h
    cases hs : TicketSerializer.validate db attrs with
    | error e => rw [hs] at h; exact absurd h (by simp)
    | ok b =>
      rw [hs] at h
      cases hr : validateTickets db rest with
      | error e => rw [hr] at h; exact absurd h (by simp)
      | ok l' =>
        rw [hr] at h
        rcases List.mem_cons.mp ha with rfl | ha'
        · rw [hs, ticket_validate_ok_eq hs]
        · exact ih hr a ha'

/-- Under primary-key uniqueness of the cargo table, resolving a ticket's
cargo FK yields exactly the witnessing cargo row's `number`. -/
theorem cargoNumberOf_eq (db : DB) (c : Cargo) (cid : Nat)
    (hmem : c ∈ db.cargos) (hid : c.id = cid)
    (hpk : ∀ c1 ∈ db.cargos, ∀ c2 ∈ db.cargos, c1.id = c2.id → c1 = c2) :
    db.cargoNumberOf cid = c.number := by
  unfold DB.cargoNumberOf DB.findCargo
  have hsome : (db.cargos.find? (fun x => x.id == cid)).isSome := by
    rw [List.find?_isSome]
    exact ⟨c, hmem, by simp [hid]⟩
  obtain ⟨c', hc'⟩ := Option.isSome_iff_exists.mp hsome
  rw [hc']
  have hc'mem : c' ∈ db.cargos := List.mem_of_find?_eq_some hc'
  have hc'id : c'.id = cid := by simpa using List.find?_some hc'
  have : c' = c := hpk c' hc'mem c hmem (by rw [hc'id, hid])
  rw [this]

/-- A pairwise relation that separates keys gives distinct keys pairwise
after mapping. -/
theorem pairwise_key_ne {α β : Type} {R : α → α → Prop} {k : α → β} :
    ∀ {l : List α}, l.Pairwise R →
      (∀ a ∈ l, ∀ b ∈ l, R a b → k a ≠ k b) →
      (l.map k).Pairwise (fun x y => x ≠ y) := by
  intro l
  induction l with
  | nil =>
    intro _ _
    simp
  | cons a l ih =>
    intro hp hne
    rw [List.map_cons, List.pairwise_cons]
    rw [List.pairwise_cons] at hp
    obtain ⟨hhead, htail⟩ := hp
    refine ⟨?_, ?_⟩
    · intro y hy
      obtain ⟨b, hb, rfl⟩ := List.mem_map.mp hy
      exact hne a (List.mem_cons_self a l) b (List.mem_cons_of_mem a hb)
        (hhead b hb)
    · exact ih htail (fun x hx y hy hr =>
        hne x (List.mem_cons_of_mem a hx) y (List.mem_cons_of_mem a hy) hr)

/-! ## Theorems -/

/-- C1: order creation is atomic. For a non-empty batch: on success the
new `Order` row and a `Ticket` row for every request are in the resulting
store; on any error the resulting store is exactly the input store
(rollback of `transaction.atomic`); and a batch containing a request that
fails `TicketSerializer.validate` always errors. -/
theorem order_creation_atomic (db : DB) (user : Nat) (td : List TicketAttrs)
    (hne : td ≠ []) :
    ((createOrder db user td).2 = none →
      ∃ oid, ({ id := oid, user := user } : Order) ∈
          ((createOrder db user td).1).orders ∧
        ∀ a ∈ td, ticketRow a oid ∈ ((createOrder db user td).1).tickets) ∧
    (∀ e, (createOrder db user td).2 = some e →
      (createOrder db user td).1 = db) ∧
    ((∃ a ∈ td, ∃ e, TicketSerializer.validate db a = .error e) →
      ∃ e, (createOrder db user td).2 = some e) := by
  unfold createOrder
  rw [if_neg (by simpa using hne)]
  cases hv : validateTickets db td with
  | error e =>
    refine ⟨fun hnone => absurd hnone (by simp), fun e' he' => rfl, fun hex => ⟨e, rfl⟩⟩
  | ok l =>
    cases hc : OrderSerializer.create db user td with
    | error e =>
      refine ⟨fun hnone => absurd hnone (by simp), fun e' he' => rfl, fun hex => ⟨e, rfl⟩⟩
    | ok db'' =>
      refine ⟨?_, ?_, ?_⟩
      · intro _
        have hc' : saveTickets
            { db with orders := db.orders ++ [{ id := db.nextOrderId, user := user }] }
            db.nextOrderId td = .ok db'' := hc
        obtain ⟨ho, -, hn⟩ := saveTickets_ok db.nextOrderId td hc'
        refine ⟨db.nextOrderId, ?_, hn⟩
        rw [show db''.orders
          = ({ db with orders := db.orders ++ [{ id := db.nextOrderId, user := user }] } : DB).orders
          from ho]
        exact List.mem_append_right _ (List.mem_singleton_self _)
      · intro e he
        exact absurd he (by simp)
      · intro hex
        exfalso
        obtain ⟨a, ha, e, hee⟩ := hex
        have hok := validateTickets_ok db td hv a ha
        rw [hok] at hee
        exact absurd hee (by simp)

/-- Witness for C1: booking the free seat of the empty store succeeds and
persists the order with its ticket; the instantiated atomicity conjunction
holds there. -/
theorem order_creation_atomic_witness :
    ([exAttrsA] ≠ ([] : List TicketAttrs)) ∧
    (((createOrder exDB6 7 [exAttrsA]).2 = none →
      ∃ oid, ({ id := oid, user := 7 } : Order) ∈
          ((createOrder exDB6 7 [exAttrsA]).1).orders ∧
        ∀ a ∈ [exAttrsA],
          ticketRow a oid ∈ ((createOrder exDB6 7 [exAttrsA]).1).tickets) ∧
    (∀ e, (createOrder exDB6 7 [exAttrsA]).2 = some e →
      (createOrder exDB6 7 [exAttrsA]).1 = exDB6) ∧
    ((∃ a ∈ [exAttrsA], ∃ e, TicketSerializer.validate exDB6 a = .error e) →
      ∃ e, (createOrder exDB6 7 [exAttrsA]).2 = some e)) :=
  ⟨by decide, order_creation_atomic exDB6 7 [exAttrsA] (by decide)⟩

/-- C2: the storage uniqueness constraint on (seat, cargo, journey) is an
invariant of successful order creation, and a booking that targets a
triple already stored fails with an error while the stored one stays. -/
theorem ticket_triple_unique (db : DB) (user : Nat) (td : List TicketAttrs)
    (h : db.uniqueTickets) :
    ((createOrder db user td).2 = none →
      ((createOrder db user td).1).uniqueTickets) ∧
    ((∃ a ∈ td, ∃ u ∈ db.tickets, attrsTriple u a) →
      ∃ e, (createOrder db user td).2 = some e) := by
  unfold createOrder
  by_cases hemp : td.isEmpty = true
  · rw [if_pos hemp]
    exact ⟨fun hnone => absurd hnone (by simp), fun hex => ⟨_, rfl⟩⟩
  · rw [if_neg hemp]
    cases hv : validateTickets db td with
    | error e =>
      exact ⟨fun hnone => absurd hnone (by simp), fun hex => ⟨e, rfl⟩⟩
    | ok l =>
      cases hc : OrderSerializer.create db user td with
      | error e =>
        exact ⟨fun hnone => absurd hnone (by simp), fun hex => ⟨e, rfl⟩⟩
      | ok db'' =>
        have hc' : saveTickets
            { db with orders := db.orders ++ [{ id := db.nextOrderId, user := user }] }
            db.nextOrderId td = .ok db'' := hc
        refine ⟨?_, ?_⟩
        · intro _
          exact saveTickets_uniq db.nextOrderId td hc' h
        · intro hex
          exfalso
          obtain ⟨a, ha, u, hu, htrip⟩ := hex
          exact @saveTickets_conflict db.nextOrderId td
            { db with orders := db.orders ++ [{ id := db.nextOrderId, user := user }] }
            ⟨a, ha, u, hu, htrip⟩ db'' hc'

/-- Witness for C2: in the store where (cargo 1, seat 1, journey 1) is
already booked, re-booking the same triple errors, and the instantiated
invariant-preservation conjunction holds. -/
theorem ticket_triple_unique_witness :
    exDB8.uniqueTickets ∧
    (((createOrder exDB8 7 [exAttrsA]).2 = none →
      ((createOrder exDB8 7 [exAttrsA]).1).uniqueTickets) ∧
    ((∃ a ∈ [exAttrsA], ∃ u ∈ exDB8.tickets, attrsTriple u a) →
      ∃ e, (createOrder exDB8 7 [exAttrsA]).2 = some e)) :=
  ⟨by decide, ticket_triple_unique exDB8 7 [exAttrsA] (by decide)⟩

/-- C3: for every train, `capacity(train)` equals
`cargo_num × places_in_cargo`; the embedding of `Train.capacity` is a pure
function of the train row, so computing it has no side effects. -/
theorem capacity_is_product (t : Train) :
    Train.capacity t = t.cargo_num * t.places_in_cargo :=
  rfl

/-- C5: `validate_position(value, max_value, field_name)` returns ok exactly
when `value` lies in `[1, max_value]`, and otherwise fails with a range
error attributed to `field_name` whose message carries the offending value
and the maximum; being a pure function, it changes nothing. -/
theorem validate_position_range (value max_value : Int) (field_name : String) :
    (Ticket.validate_position value max_value field_name = .ok () ↔
      1 ≤ value ∧ value ≤ max_value) ∧
    (Ticket.validate_position value max_value field_name =
        .error (field_name,
          s!"{field_name} must be in range [1, {max_value}], not {value}") ↔
      ¬ (1 ≤ value ∧ value ≤ max_value)) := by
  unfold Ticket.validate_position
  constructor <;> split <;> simp_all

/-- C4: for a journey whose train FK resolves to `tr`, both the
detail-view computation (`get_tickets_available`) and the list-view bulk
annotation equal `capacity(train) − count(tickets for journey)`; both are
pure functions of the store. -/
theorem tickets_available_agree (db : DB) (j : Journey) (tr : Train)
    (h : db.findTrain j.train = some tr) :
    JourneyListSerializer.get_tickets_available db j tr =
      tr.capacity - (db.journeyTicketCount j.id : Int) ∧
    JourneyViewSet.annotate_tickets_available db j tr =
      tr.capacity - (db.journeyTicketCount j.id : Int) := by
  exact ⟨rfl, rfl⟩

/-- Witness for C4 at a concrete store: the journey's train resolves, and
both availability computations give capacity 1 minus 1 booked ticket. -/
theorem tickets_available_agree_witness :
    exDB8.findTrain exJourneyA.train = some exTrainA ∧
    (JourneyListSerializer.get_tickets_available exDB8 exJourneyA exTrainA =
        exTrainA.capacity - (exDB8.journeyTicketCount exJourneyA.id : Int) ∧
      JourneyViewSet.annotate_tickets_available exDB8 exJourneyA exTrainA =
        exTrainA.capacity - (exDB8.journeyTicketCount exJourneyA.id : Int)) :=
  ⟨by decide, tickets_available_agree exDB8 exJourneyA exTrainA (by decide)⟩

/-- C10: `OrderViewSet.get_queryset` returns exactly the orders owned by
the requesting user. -/
theorem order_queryset_scoped (db : DB) (u : Nat) (o : Order) :
    o ∈ OrderViewSet.get_queryset db u ↔ o ∈ db.orders ∧ o.user = u := by
  simp [OrderViewSet.get_queryset, List.mem_filter]

/-- Counterexample for C6: `TicketSerializer.validate` accepts a ticket
whose cargo (`exCargoB`, an existing cargo row of train 2) does not belong
to the journey's train (train 1), because only the cargo's `number` is
range-checked. -/
theorem validate_accepts_foreign_cargo :
    exCargoB ∈ exDB6.cargos ∧
    TicketSerializer.validate exDB6 exAttrs6 = .ok exAttrs6 ∧
    exAttrs6.cargo.train ≠ exAttrs6.journey.train := by
  decide

/-- Counterexample for C8: booking the cross-train request `exAttrs6`
against the fully-booked journey succeeds, after which the reported
availability of the journey is negative. -/
theorem booking_drives_availability_negative :
    exDB8.findTrain exJourneyA.train = some exTrainA ∧
    (createOrder exDB8 7 [exAttrs6]).2 = none ∧
    JourneyListSerializer.get_tickets_available
      (createOrder exDB8 7 [exAttrs6]).1 exJourneyA exTrainA < 0 := by
  decide

/-- C6 (amended): given the journey's train row, `TicketSerializer.validate`
accepts a ticket request exactly when the seat is in
`[1, places_in_cargo]` and the resolved cargo's `number` is in
`[1, cargo_num]`; whether the cargo belongs to the journey's train is not
checked. -/
theorem ticket_validate_in_range_iff (db : DB) (attrs : TicketAttrs)
    (tr : Train) (h : db.findTrain attrs.journey.train = some tr) :
    TicketSerializer.validate db attrs = .ok attrs ↔
      (1 ≤ attrs.seat ∧ attrs.seat ≤ tr.places_in_cargo) ∧
      (1 ≤ attrs.cargo.number ∧ attrs.cargo.number ≤ tr.cargo_num) := by
  simp only [TicketSerializer.validate, h, Ticket.validate_position]
  split_ifs with h1 h2 <;> simp_all

/-- Witness for C6's amended theorem: in the concrete store the in-range
cross-train request is accepted, matching the iff. -/
theorem ticket_validate_in_range_iff_witness :
    exDB6.findTrain exAttrs6.journey.train = some exTrainA ∧
    (TicketSerializer.validate exDB6 exAttrs6 = .ok exAttrs6 ↔
      (1 ≤ exAttrs6.seat ∧ exAttrs6.seat ≤ exTrainA.places_in_cargo) ∧
      (1 ≤ exAttrs6.cargo.number ∧ exAttrs6.cargo.number ≤ exTrainA.cargo_num)) :=
  ⟨by decide, ticket_validate_in_range_iff exDB6 exAttrs6 exTrainA (by decide)⟩

/-- C7: after a cargo creation or deletion completes, the owning train's
stored `cargo_num` equals the count of cargo rows of that train in the
resulting store, and the `update_cargo_num` synchronization performs the
single-field write iff the recomputed count differs from the stored
value. -/
theorem cargo_num_synced (db : DB) (c : Cargo) (tr : Train)
    (h : db.findTrain c.train = some tr) :
    (∃ tr', (Cargo.create db c).findTrain c.train = some tr' ∧
      tr'.cargo_num = ((Cargo.create db c).cargoCount c.train : Int)) ∧
    (∃ tr', (Cargo.delete db c).findTrain c.train = some tr' ∧
      tr'.cargo_num = ((Cargo.delete db c).cargoCount c.train : Int)) ∧
    ((update_cargo_num db c).2 = true ↔
      tr.cargo_num ≠ (db.cargoCount c.train : Int)) := by
  refine ⟨?_, ?_, ?_⟩
  · have h1 : ({ db with cargos := db.cargos ++ [c] } : DB).findTrain c.train
        = some tr := h
    obtain ⟨tr', hfind, hnum, hcargos, -⟩ :=
      update_cargo_num_spec { db with cargos := db.cargos ++ [c] } c tr h1
    refine ⟨tr', hfind, ?_⟩
    have hcc : (Cargo.create db c).cargoCount c.train
        = ({ db with cargos := db.cargos ++ [c] } : DB).cargoCount c.train := by
      unfold DB.cargoCount DB.trainCargos
      rw [show (Cargo.create db c).cargos
        = ({ db with cargos := db.cargos ++ [c] } : DB).cargos from hcargos]
    rw [hcc]
    exact hnum
  · have h1 : ({ db with
        cargos := db.cargos.filter (fun x => x.id != c.id) } : DB).findTrain
          c.train = some tr := h
    obtain ⟨tr', hfind, hnum, hcargos, -⟩ :=
      update_cargo_num_spec
        { db with cargos := db.cargos.filter (fun x => x.id != c.id) } c tr h1
    refine ⟨tr', hfind, ?_⟩
    have hcc : (Cargo.delete db c).cargoCount c.train
        = ({ db with
            cargos := db.cargos.filter (fun x => x.id != c.id) } : DB).cargoCount
              c.train := by
      unfold DB.cargoCount DB.trainCargos
      rw [show (Cargo.delete db c).cargos
        = ({ db with
            cargos := db.cargos.filter (fun x => x.id != c.id) } : DB).cargos
          from hcargos]
    rw [hcc]
    exact hnum
  · obtain ⟨-, -, -, -, hiff⟩ := update_cargo_num_spec db c tr h
    exact hiff

/-- Witness for C7: in the concrete one-cargo store, creating a second
cargo and deleting the existing one both leave `cargo_num` equal to the
count, and the write-iff-differs equivalence holds there. -/
theorem cargo_num_synced_witness :
    exDB9.findTrain exCargoA.train = some exTrain9 ∧
    ((∃ tr', (Cargo.create exDB9 exCargoA).findTrain exCargoA.train = some tr' ∧
      tr'.cargo_num = ((Cargo.create exDB9 exCargoA).cargoCount exCargoA.train : Int)) ∧
    (∃ tr', (Cargo.delete exDB9 exCargoA).findTrain exCargoA.train = some tr' ∧
      tr'.cargo_num = ((Cargo.delete exDB9 exCargoA).cargoCount exCargoA.train : Int)) ∧
    ((update_cargo_num exDB9 exCargoA).2 = true ↔
      exTrain9.cargo_num ≠ (exDB9.cargoCount exCargoA.train : Int))) :=
  ⟨by decide, cargo_num_synced exDB9 exCargoA exTrain9 (by decide)⟩

/-- Counterexample for C9: deleting the last cargo of `exTrain9` (stored
`cargo_num = 1`) fires `update_cargo_num`, which persists the recomputed
count 0 on the train row. -/
theorem delete_last_cargo_persists_zero :
    (Cargo.delete exDB9 exCargoA).findTrain exCargoA.train =
      some { id := 1, name := none, cargo_num := 0, places_in_cargo := 30 } := by
  decide

/-- C8 (amended): availability cannot go negative as long as every ticket
of the journey uses a cargo that belongs to the journey's train (with the
field bounds and the storage constraints in force): at most
`cargo_num × places_in_cargo` distinct (cargo number, seat) positions
exist, so the ticket count never exceeds `capacity`. The code itself does
not enforce the cargo-train membership, which is why the unguarded claim
fails. -/
theorem availability_nonneg (db : DB) (j : Journey) (tr : Train)
    (h0 : db.findTrain j.train = some tr)
    (h1 : 1 ≤ tr.cargo_num) (h2 : 1 ≤ tr.places_in_cargo)
    (h3 : db.uniqueTickets)
    (h4 : db.ticketsInRange j tr)
    (h5 : db.cargoKeysUnique) :
    0 ≤ JourneyListSerializer.get_tickets_available db j tr := by
  obtain ⟨hpk, hut⟩ := h5
  have h4' := h4
  unfold DB.ticketsInRange at h4'
  have hres : ∀ t ∈ db.journeyTickets j.id, ∃ c ∈ db.cargos,
      c.id = t.cargo ∧ c.train = tr.id ∧ 1 ≤ c.number ∧
      c.number ≤ tr.cargo_num ∧ db.cargoNumberOf t.cargo = c.number := by
    intro t ht
    obtain ⟨-, c, hcmem, hcid, hctrain, hn1, hn2⟩ := h4' t ht
    exact ⟨c, hcmem, hcid, hctrain, hn1, hn2,
      cargoNumberOf_eq db c t.cargo hcmem hcid hpk⟩
  have hpL : (db.journeyTickets j.id).Pairwise (fun a b => ¬ sameTriple a b) := by
    have hsub : List.Sublist (db.journeyTickets j.id) db.tickets := by
      unfold DB.journeyTickets
      exact List.filter_sublist db.tickets
    exact List.Pairwise.sublist hsub h3
  have hjid : ∀ t ∈ db.journeyTickets j.id, t.journey = j.id := by
    intro t ht
    unfold DB.journeyTickets at ht
    have := (List.mem_filter.mp ht).2
    simpa using this
  have hkey : ∀ a ∈ db.journeyTickets j.id, ∀ b ∈ db.journeyTickets j.id,
      ¬ sameTriple a b →
      ((db.cargoNumberOf a.cargo, a.seat) : Int × Int) ≠
        (db.cargoNumberOf b.cargo, b.seat) := by
    intro a ha b hb hnst heq
    apply hnst
    have hseat : a.seat = b.seat := congrArg Prod.snd heq
    have hnum : db.cargoNumberOf a.cargo = db.cargoNumberOf b.cargo :=
      congrArg Prod.fst heq
    obtain ⟨ca, hcams, hcaid, hcatr, -, -, hcanum⟩ := hres a ha
    obtain ⟨cb, hcbms, hcbid, hcbtr, -, -, hcbnum⟩ := hres b hb
    have hcc : ca = cb :=
      hut ca hcams cb hcbms (by rw [hcatr, hcbtr])
        (by rw [← hcanum, ← hcbnum, hnum])
    refine ⟨hseat, ?_, ?_⟩
    · rw [← hcaid, ← hcbid, hcc]
    · rw [hjid a ha, hjid b hb]
  have hnd : ((db.journeyTickets j.id).map
      (fun t => ((db.cargoNumberOf t.cargo, t.seat) : Int × Int))).Pairwise
        (fun x y => x ≠ y) :=
    pairwise_key_ne hpL hkey
  have hmemS : ∀ x ∈ (db.journeyTickets j.id).map
      (fun t => ((db.cargoNumberOf t.cargo, t.seat) : Int × Int)),
      x ∈ Finset.Icc (1 : Int) tr.cargo_num ×ˢ
        Finset.Icc (1 : Int) tr.places_in_cargo := by
    intro x hx
    obtain ⟨t, ht, rfl⟩ := List.mem_map.mp hx
    rw [Finset.mem_product]
    obtain ⟨hseatb, -⟩ := h4' t ht
    obtain ⟨c, -, -, -, hn1, hn2, hcnum⟩ := hres t ht
    constructor
    · rw [Finset.mem_Icc]
      rw [show db.cargoNumberOf t.cargo = c.number from hcnum]
      exact ⟨hn1, hn2⟩
    · rw [Finset.mem_Icc]
      exact hseatb
  have hndup : ((db.journeyTickets j.id).map
      (fun t => ((db.cargoNumberOf t.cargo, t.seat) : Int × Int))).Nodup := hnd
  have hcard : ((db.journeyTickets j.id).map
      (fun t => ((db.cargoNumberOf t.cargo, t.seat) : Int × Int))).toFinset.card
      = (db.journeyTickets j.id).length := by
    rw [List.toFinset_card_of_nodup hndup, List.length_map]
  have hle : (db.journeyTickets j.id).length ≤
      (Finset.Icc (1 : Int) tr.cargo_num ×ˢ
        Finset.Icc (1 : Int) tr.places_in_cargo).card := by
    rw [← hcard]
    exact Finset.card_le_card
      (fun x hx => hmemS x (List.mem_toFinset.mp hx))
  have hScard : (Finset.Icc (1 : Int) tr.cargo_num ×ˢ
      Finset.Icc (1 : Int) tr.places_in_cargo).card =
      tr.cargo_num.toNat * tr.places_in_cargo.toNat := by
    rw [Finset.card_product, Int.card_Icc, Int.card_Icc]
    have e1 : tr.cargo_num + 1 - 1 = tr.cargo_num := by ring
    have e2 : tr.places_in_cargo + 1 - 1 = tr.places_in_cargo := by ring
    rw [e1, e2]
  rw [hScard] at hle
  have hN : ((tr.cargo_num.toNat : Int)) = tr.cargo_num :=
    Int.toNat_of_nonneg (by linarith)
  have hP : ((tr.places_in_cargo.toNat : Int)) = tr.places_in_cargo :=
    Int.toNat_of_nonneg (by linarith)
  have hle' : ((db.journeyTickets j.id).length : Int) ≤
      ((tr.cargo_num.toNat * tr.places_in_cargo.toNat : Nat) : Int) := by
    exact_mod_cast hle
  push_cast at hle'
  rw [hN, hP] at hle'
  unfold JourneyListSerializer.get_tickets_available Train.capacity
    DB.journeyTicketCount
  linarith

/-- Witness for C8's amended theorem: the fully-booked one-seat journey
satisfies all invariants and reports availability exactly 0. -/
theorem availability_nonneg_witness :
    exDB8.findTrain exJourneyA.train = some exTrainA ∧
    (1 : Int) ≤ exTrainA.cargo_num ∧
    (1 : Int) ≤ exTrainA.places_in_cargo ∧
    exDB8.uniqueTickets ∧
    exDB8.ticketsInRange exJourneyA exTrainA ∧
    exDB8.cargoKeysUnique ∧
    0 ≤ JourneyListSerializer.get_tickets_available exDB8 exJourneyA exTrainA :=
  ⟨by decide, by decide, by decide, by decide, by decide, by decide,
    availability_nonneg exDB8 exJourneyA exTrainA (by decide) (by decide)
      (by decide) (by decide) (by decide) (by decide)⟩

/-- C9 (amended): the `cargo_num ≥ 1` bound is only a field validator on
validated writes; the `update_cargo_num` recomputation persists the raw
count, so deleting a cargo that was the last cargo row of its train
persists `cargo_num = 0` on that train. -/
theorem delete_last_cargo_zero (db : DB) (c : Cargo) (tr : Train)
    (h : db.findTrain c.train = some tr)
    (hlast : ∀ x ∈ db.cargos, x.train = c.train → x.id = c.id) :
    ∃ tr', (Cargo.delete db c).findTrain c.train = some tr' ∧
      tr'.cargo_num = 0 := by
  have h1 : ({ db with
      cargos := db.cargos.filter (fun x => x.id != c.id) } : DB).findTrain
        c.train = some tr := h
  obtain ⟨tr', hfind, hnum, -, -⟩ :=
    update_cargo_num_spec
      { db with cargos := db.cargos.filter (fun x => x.id != c.id) } c tr h1
  refine ⟨tr', hfind, ?_⟩
  have hz : ({ db with
      cargos := db.cargos.filter (fun x => x.id != c.id) } : DB).cargoCount
        c.train = 0 := by
    unfold DB.cargoCount DB.trainCargos
    rw [List.length_eq_zero]
    rw [List.filter_eq_nil_iff]
    intro x hx
    obtain ⟨hxmem, hxid⟩ := List.mem_filter.mp hx
    intro hxtrain
    have hxt : x.train = c.train := by simpa using hxtrain
    have : x.id = c.id := hlast x hxmem hxt
    simp [this] at hxid
  rw [hz] at hnum
  simpa using hnum

/-- Witness for C9's amended theorem: in the concrete store, deleting the
only cargo of train 1 leaves the train row with `cargo_num = 0`. -/
theorem delete_last_cargo_zero_witness :
    exDB9.findTrain exCargoA.train = some exTrain9 ∧
    (∀ x ∈ exDB9.cargos, x.train = exCargoA.train → x.id = exCargoA.id) ∧
    (∃ tr', (Cargo.delete exDB9 exCargoA).findTrain exCargoA.train = some tr' ∧
      tr'.cargo_num = 0) :=
  ⟨by decide, by decide,
    delete_last_cargo_zero exDB9 exCargoA exTrain9 (by decide) (by decide)⟩

end Station
